import Mathlib

/-!
Verification development for the neovim-manager instance registry service.

The embedding follows `src/lib.rs` and `src/manager/main.rs`:
  * `HealthStatus`, `InstanceInfo`, `InstanceResult`, the JSON-RPC envelope
    types and the error-code constants come from `src/lib.rs`;
  * the registry operations (`health_check_all`, `query_instance`,
    `list_instances`, `register_instance`, `unregister_instance`), the
    dispatcher `handle_request` and the per-connection loop `handle_client`
    come from `src/manager/main.rs`.

Modelling decisions:
  * The `InstanceStorage = HashMap<String, InstanceInfo>` is embedded as an
    association list `List (String × InstanceInfo)`; hash-map key uniqueness
    is the invariant `NodupKeys`, proved preserved by every operation.
  * Timestamps (`chrono::DateTime<Utc>`) are `Nat`; each operation receives
    the current time `now` as a parameter (the code calls `Utc::now()`).
  * The external liveness probe `utils::check_nvim_instance(addr).unwrap_or(false)`
    is a parameter `probe : String → Bool` (it shells out to `nvim`, outside
    this repository; `unwrap_or(false)` makes it total).
  * `serde_json::Value` is the inductive `Json`; serde's derived
    encode/decode for the envelope structs (including
    `skip_serializing_if = "Option::is_none"` and `Option`'s treatment of
    `null`) is embedded as explicit functions on `Json`.
  * `serde_json::from_str::<JsonRpcRequest>` (text-level parsing, external
    crate) is a parameter `parse : String → Option JsonRpcRequest` of the
    connection loop.
  * The tokio `RwLock` serializes every lock section: each registry
    operation holds the write (resp. read) lock for its whole body, except
    `list_instances`, which holds the write lock for the sweep, releases it
    when `health_check_all` returns, and only then takes the read lock for
    the snapshot. A concurrent history is therefore an interleaving of lock
    sections; theorems quantify over arbitrary operation sequences, and
    `list_instances_interleaved` makes the gap inside `list_instances`
    explicit by taking the operations other tasks run in between.
-/

-- ## Definitions: the shallow embedding of the program

/-- `enum HealthStatus { Unknown, Healthy }` from `src/lib.rs`. -/
inductive HealthStatus where
  | Unknown
  | Healthy
  deriving DecidableEq, Repr

/-- `struct InstanceInfo` from `src/lib.rs`; timestamps are `Nat`. -/
structure InstanceInfo where
  identifier : String
  server_address : String
  registered_at : Nat
  last_ping : Nat
  health_status : HealthStatus
  last_health_check : Nat
  deriving DecidableEq, Repr

/-- `struct InstanceResult` from `src/lib.rs`: the snapshot returned to clients. -/
structure InstanceResult where
  identifier : String
  server_address : String
  health_status : HealthStatus
  last_health_check : Nat
  deriving DecidableEq, Repr

/-- `pub type InstanceStorage = HashMap<String, InstanceInfo>` modelled as an
association list whose key uniqueness is tracked by `NodupKeys`. -/
def InstanceStorage : Type := List (String × InstanceInfo)

instance : Membership (String × InstanceInfo) InstanceStorage :=
  inferInstanceAs (Membership (String × InstanceInfo) (List (String × InstanceInfo)))

/-- Hash-map lookup `instances.get(identifier)`. -/
def InstanceStorage.lookup : InstanceStorage → String → Option InstanceInfo
  | [], _ => none
  | (k, v) :: rest, identifier =>
    if k = identifier then some v else InstanceStorage.lookup rest identifier

/-- The hash-map invariant: no two entries share a key. -/
def NodupKeys (st : InstanceStorage) : Prop :=
  (st.map Prod.fst).Nodup

/-- The snapshot built from a record by `query_instance` / `list_instances`
(field-for-field copy in `src/manager/main.rs`). -/
def snapshotOf (v : InstanceInfo) : InstanceResult :=
  { identifier := v.identifier
    server_address := v.server_address
    health_status := v.health_status
    last_health_check := v.last_health_check }

/-- One loop iteration of `InstanceManager::health_check_all` applied to the
whole table, returning the surviving entries together with the trace of
probed endpoints (one probe per record; the code also sets
`last_health_check = now` on records it then removes, which is unobservable). -/
def sweepGo (probe : String → Bool) (now : Nat) :
    List (String × InstanceInfo) → List (String × InstanceInfo) × List String
  | [] => ([], [])
  | (k, v) :: rest =>
    let healthy := probe v.server_address
    let (st', tr) := sweepGo probe now rest
    (if healthy then
       (k, { v with health_status := .Healthy, last_ping := now,
                    last_health_check := now }) :: st'
     else st',
     v.server_address :: tr)

/-- `InstanceManager::health_check_all`: probe every record; survivors become
`Healthy` with refreshed timestamps, failures are removed. -/
def health_check_all (probe : String → Bool) (now : Nat)
    (st : InstanceStorage) : InstanceStorage :=
  (sweepGo probe now st).1

/-- The endpoints probed by one `health_check_all` pass. -/
def sweepTrace (probe : String → Bool) (now : Nat)
    (st : InstanceStorage) : List String :=
  (sweepGo probe now st).2

/-- `InstanceManager::query_instance`: pure read under the read lock. -/
def query_instance (st : InstanceStorage) (identifier : String) :
    Option InstanceResult :=
  match st.lookup identifier with
  | some v => some (snapshotOf v)
  | none => none

/-- `InstanceManager::list_instances`: run a full health sweep, then snapshot
every remaining record. -/
def list_instances (probe : String → Bool) (now : Nat) (st : InstanceStorage) :
    InstanceStorage × List InstanceResult :=
  let st' := health_check_all probe now st
  (st', st'.map (fun kv => snapshotOf kv.2))

/-- Outcome of `register_instance`: `Ok(())` or `Err("Instance already exists")`. -/
inductive RegResult where
  | ok
  | alreadyExists
  deriving DecidableEq, Repr

/-- `InstanceManager::register_instance`: check-then-insert under one
exclusive write-lock section. -/
def register_instance (st : InstanceStorage) (identifier server_address : String)
    (now : Nat) : InstanceStorage × RegResult :=
  if st.lookup identifier ≠ none then
    (st, .alreadyExists)
  else
    ((identifier,
      ({ identifier := identifier
         server_address := server_address
         registered_at := now
         last_ping := now
         health_status := .Unknown
         last_health_check := now } : InstanceInfo)) :: st, .ok)

/-- Outcome of `unregister_instance`: `Ok(())` or `Err("Instance not found")`. -/
inductive UnregResult where
  | ok
  | notFound
  deriving DecidableEq, Repr

/-- `InstanceManager::unregister_instance`: `HashMap::remove` under the write
lock (removes the unique entry with that key; modelled as erasing the first). -/
def unregister_instance (st : InstanceStorage) (identifier : String) :
    InstanceStorage × UnregResult :=
  if st.lookup identifier ≠ none then
    (st.eraseP (fun kv => kv.1 == identifier), .ok)
  else
    (st, .notFound)

/-- One serialized registry operation, as admitted by the `RwLock` discipline:
each constructor is one whole critical section. `list` carries its own probe
function because `list_instances` triggers a sweep. -/
inductive Op where
  | register (identifier server_address : String) (now : Nat)
  | unregister (identifier : String)
  | query (identifier : String)
  | list (probe : String → Bool) (now : Nat)
  | sweep (probe : String → Bool) (now : Nat)

/-- State transition of one operation together with the endpoints it probes. -/
def applyT (op : Op) (st : InstanceStorage) : InstanceStorage × List String :=
  match op with
  | .register identifier addr now => ((register_instance st identifier addr now).1, [])
  | .unregister identifier => ((unregister_instance st identifier).1, [])
  | .query _ => (st, [])
  | .list probe now => ((list_instances probe now st).1, sweepTrace probe now st)
  | .sweep probe now => (health_check_all probe now st, sweepTrace probe now st)

/-- State transition of one operation. -/
def Op.apply (op : Op) (st : InstanceStorage) : InstanceStorage :=
  (applyT op st).1

/-- Run a sequence of serialized operations. -/
def applyAll (ops : List Op) (st : InstanceStorage) : InstanceStorage :=
  ops.foldl (fun s op => op.apply s) st

/-- A burst of racing `register_instance` calls for one identifier: the
`RwLock` write lock serializes them into some order; each element of the list
is one racer's `(server_address, now)`. Returns the final state and each
racer's outcome in order. -/
def runRegisters (st : InstanceStorage) (identifier : String) :
    List (String × Nat) → InstanceStorage × List RegResult
  | [] => (st, [])
  | (addr, now) :: rest =>
    let (st', r) := register_instance st identifier addr now
    let (st'', rs) := runRegisters st' identifier rest
    (st'', r :: rs)

/-- A concrete record registered under "a", endpoint "pa". -/
def infoA : InstanceInfo :=
  { identifier := "a", server_address := "pa", registered_at := 0,
    last_ping := 0, health_status := .Unknown, last_health_check := 0 }

/-- A concrete record registered under "b", endpoint "pb". -/
def infoB : InstanceInfo :=
  { identifier := "b", server_address := "pb", registered_at := 0,
    last_ping := 3, health_status := .Healthy, last_health_check := 3 }

/-- A concrete two-record table. -/
def sampleStorage : InstanceStorage := [("a", infoA), ("b", infoB)]

/-- A probe under which only endpoint "pa" is alive. -/
def probeOnlyA : String → Bool := fun addr => addr == "pa"

/-- Operations that neither sweep nor unregister a given identifier: these
leave that identifier's record untouched. -/
def PreservesKey (identifier : String) : Op → Prop
  | .register _ _ _ => True
  | .unregister j => j ≠ identifier
  | .query _ => True
  | .list _ _ => False
  | .sweep _ _ => False

/-- `serde_json::Value` (numbers restricted to the integers this protocol
uses). -/
inductive Json where
  | null
  | bool (b : Bool)
  | num (n : Int)
  | str (s : String)
  | arr (elems : List Json)
  | obj (fields : List (String × Json))

/-- Whether a value is JSON `null`. -/
def Json.isNull : Json → Bool
  | .null => true
  | _ => false

/-- `struct JsonRpcRequest` from `src/lib.rs`. -/
structure JsonRpcRequest where
  jsonrpc : String
  method : String
  params : Json
  id : Json

/-- `struct JsonRpcError` from `src/lib.rs`; `data` has
`skip_serializing_if = "Option::is_none"`. -/
structure JsonRpcError where
  code : Int
  message : String
  data : Option Json

/-- `struct JsonRpcResponse` from `src/lib.rs`; `result` and `error` have
`skip_serializing_if = "Option::is_none"`. -/
structure JsonRpcResponse where
  jsonrpc : String
  result : Option Json
  error : Option JsonRpcError
  id : Json

/-- `errors::INTERNAL_ERROR` from `src/lib.rs`. -/
def errors.INTERNAL_ERROR : Int := -32000

/-- `errors::INSTANCE_ALREADY_EXISTS` from `src/lib.rs`. -/
def errors.INSTANCE_ALREADY_EXISTS : Int := -32001

/-- `errors::INSTANCE_NOT_FOUND` from `src/lib.rs`. -/
def errors.INSTANCE_NOT_FOUND : Int := -32002

/-- First value of a JSON object field, by key. -/
def lookupField : List (String × Json) → String → Option Json
  | [], _ => none
  | (k, v) :: rest, key => if k = key then some v else lookupField rest key

/-- Serde's derived `Serialize` for `JsonRpcRequest`: every field present. -/
def encodeRequest (r : JsonRpcRequest) : Json :=
  .obj [("jsonrpc", .str r.jsonrpc), ("method", .str r.method),
        ("params", r.params), ("id", r.id)]

/-- Serde's derived `Serialize` for `JsonRpcError`: `data` omitted when
`None`. -/
def encodeError (e : JsonRpcError) : Json :=
  .obj ([("code", .num e.code), ("message", .str e.message)] ++
    match e.data with
    | none => []
    | some d => [("data", d)])

/-- Serde's derived `Serialize` for `JsonRpcResponse`: `result` and `error`
omitted when `None`. -/
def encodeResponse (r : JsonRpcResponse) : Json :=
  .obj (("jsonrpc", Json.str r.jsonrpc) ::
    ((match r.result with
      | none => []
      | some v => [("result", v)]) ++
     (match r.error with
      | none => []
      | some e => [("error", encodeError e)]) ++
     [("id", r.id)]))

/-- Serde decoding of a `String` field. -/
def decodeString : Json → Option String
  | .str s => some s
  | _ => none

/-- Serde decoding of an `i32` field (range handled by the Rust type). -/
def decodeInt : Json → Option Int
  | .num n => some n
  | _ => none

/-- Serde's handling of an `Option<Value>` field: a missing field and an
explicit `null` both decode to `None`. -/
def decodeOptValue (o : Option Json) : Option Json :=
  match o with
  | none => none
  | some v => if v.isNull then none else some v

/-- Serde's derived `Deserialize` for `JsonRpcError`. -/
def decodeError (j : Json) : Option JsonRpcError :=
  match j with
  | .obj fields => do
    let code ← (lookupField fields "code").bind decodeInt
    let message ← (lookupField fields "message").bind decodeString
    some { code := code, message := message,
           data := decodeOptValue (lookupField fields "data") }
  | _ => none

/-- Serde's handling of the `Option<JsonRpcError>` field: missing or `null`
decodes to `None`; any other value must decode as a `JsonRpcError`. -/
def decodeOptError (o : Option Json) : Option (Option JsonRpcError) :=
  match o with
  | none => some none
  | some v => if v.isNull then some none else (decodeError v).map some

/-- Serde's derived `Deserialize` for `JsonRpcResponse`. -/
def decodeResponse (j : Json) : Option JsonRpcResponse :=
  match j with
  | .obj fields => do
    let jsonrpc ← (lookupField fields "jsonrpc").bind decodeString
    let error ← decodeOptError (lookupField fields "error")
    let id ← lookupField fields "id"
    some { jsonrpc := jsonrpc,
           result := decodeOptValue (lookupField fields "result"),
           error := error, id := id }
  | _ => none

/-- Serde's derived `Deserialize` for `JsonRpcRequest`: all four fields
required. -/
def decodeRequest (j : Json) : Option JsonRpcRequest :=
  match j with
  | .obj fields => do
    let jsonrpc ← (lookupField fields "jsonrpc").bind decodeString
    let method ← (lookupField fields "method").bind decodeString
    let params ← lookupField fields "params"
    let id ← lookupField fields "id"
    some { jsonrpc := jsonrpc, method := method, params := params, id := id }
  | _ => none

/-- `struct QueryInstanceParams` from `src/lib.rs`. -/
structure QueryInstanceParams where
  identifier : String

/-- `struct RegisterInstanceParams` from `src/lib.rs`. -/
structure RegisterInstanceParams where
  identifier : String
  server_address : String

/-- `struct UnregisterInstanceParams` from `src/lib.rs`. -/
structure UnregisterInstanceParams where
  identifier : String

/-- `serde_json::from_value::<QueryInstanceParams>`. -/
def decodeQueryInstanceParams (j : Json) : Option QueryInstanceParams :=
  match j with
  | .obj fields =>
    ((lookupField fields "identifier").bind decodeString).map
      (fun identifier => { identifier := identifier })
  | _ => none

/-- `serde_json::from_value::<RegisterInstanceParams>`. -/
def decodeRegisterInstanceParams (j : Json) : Option RegisterInstanceParams :=
  match j with
  | .obj fields => do
    let identifier ← (lookupField fields "identifier").bind decodeString
    let server_address ← (lookupField fields "server_address").bind decodeString
    some { identifier := identifier, server_address := server_address }
  | _ => none

/-- `serde_json::from_value::<UnregisterInstanceParams>`. -/
def decodeUnregisterInstanceParams (j : Json) : Option UnregisterInstanceParams :=
  match j with
  | .obj fields =>
    ((lookupField fields "identifier").bind decodeString).map
      (fun identifier => { identifier := identifier })
  | _ => none

/-- `json!(instance)` for an `InstanceResult` (`HealthStatus` serializes as its
variant name; the timestamp as a number in this embedding). -/
def encodeInstanceResult (r : InstanceResult) : Json :=
  .obj [("identifier", .str r.identifier),
        ("server_address", .str r.server_address),
        ("health_status", .str (match r.health_status with
          | .Unknown => "Unknown"
          | .Healthy => "Healthy")),
        ("last_health_check", .num r.last_health_check)]

/-- The response assembly at the end of `handle_request`: `Ok` fills `result`,
`Err` fills `error`, the request id is echoed. -/
def mkResponse (id : Json) : Except JsonRpcError Json → JsonRpcResponse
  | .ok result => { jsonrpc := "2.0", result := some result, error := none, id := id }
  | .error e => { jsonrpc := "2.0", result := none, error := some e, id := id }

/-- What one dispatched request does to the connection: send one reply, or
terminate the process (`shutdown` calls `std::process::exit(0)`). -/
inductive Outcome where
  | reply (resp : JsonRpcResponse)
  | exited

/-- `InstanceManager::handle_request`: route on the method name, run the
registry operation, map domain errors to protocol errors. The serde failure
text interpolated into "Invalid parameters: {e}" is external; the message is
modelled by its fixed prefix. -/
def handle_request (probe : String → Bool) (now : Nat) (st : InstanceStorage)
    (request : JsonRpcRequest) : InstanceStorage × Outcome :=
  match request.method with
  | "query_instance" =>
    match decodeQueryInstanceParams request.params with
    | some params =>
      match query_instance st params.identifier with
      | some instanceResult =>
        (st, .reply (mkResponse request.id (.ok (encodeInstanceResult instanceResult))))
      | none => (st, .reply (mkResponse request.id (.ok .null)))
    | none =>
      (st, .reply (mkResponse request.id
        (.error ⟨errors.INTERNAL_ERROR, "Invalid parameters", none⟩)))
  | "list_instances" =>
    let res := list_instances probe now st
    (res.1, .reply (mkResponse request.id
      (.ok (.arr (res.2.map encodeInstanceResult)))))
  | "register_instance" =>
    match decodeRegisterInstanceParams request.params with
    | some params =>
      let res := register_instance st params.identifier params.server_address now
      match res.2 with
      | .ok => (res.1, .reply (mkResponse request.id (.ok (.str "registered"))))
      | .alreadyExists =>
        (res.1, .reply (mkResponse request.id
          (.error ⟨errors.INSTANCE_ALREADY_EXISTS, "Instance already exists",
            some (.obj [("identifier", .str params.identifier)])⟩)))
    | none =>
      (st, .reply (mkResponse request.id
        (.error ⟨errors.INTERNAL_ERROR, "Invalid parameters", none⟩)))
  | "unregister_instance" =>
    match decodeUnregisterInstanceParams request.params with
    | some params =>
      let res := unregister_instance st params.identifier
      match res.2 with
      | .ok => (res.1, .reply (mkResponse request.id (.ok (.str "unregistered"))))
      | .notFound =>
        (res.1, .reply (mkResponse request.id
          (.error ⟨errors.INSTANCE_NOT_FOUND, "Instance not found",
            some (.obj [("identifier", .str params.identifier)])⟩)))
    | none =>
      (st, .reply (mkResponse request.id
        (.error ⟨errors.INTERNAL_ERROR, "Invalid parameters", none⟩)))
  | "shutdown" => (st, .exited)
  | _ =>
    (st, .reply (mkResponse request.id (.error ⟨-32601, "Method not found", none⟩)))

/-- `str::trim` from the connection loop (whitespace at both ends removed). -/
def rustTrim (s : String) : String :=
  String.mk (((s.data.dropWhile Char.isWhitespace).reverse.dropWhile
    Char.isWhitespace).reverse)

/-- The response `handle_client` builds when `serde_json::from_str` fails. -/
def parseErrorResponse : JsonRpcResponse :=
  { jsonrpc := "2.0", result := none,
    error := some { code := -32700, message := "Parse error", data := none },
    id := Json.null }

/-- The read loop of `handle_client`, applied to the sequence of lines
received on one connection: blank lines are skipped, unparsable lines get a
parse-error reply, parsed requests are dispatched; `shutdown` terminates the
process. Returns the final registry state and the response lines written, in
order. -/
def processLines (probe : String → Bool) (now : Nat)
    (parse : String → Option JsonRpcRequest) :
    InstanceStorage → List String → InstanceStorage × List JsonRpcResponse
  | st, [] => (st, [])
  | st, line :: rest =>
    let trimmed := rustTrim line
    if trimmed = "" then processLines probe now parse st rest
    else
      match parse trimmed with
      | some request =>
        match handle_request probe now st request with
        | (st', .reply resp) =>
          let res := processLines probe now parse st' rest
          (res.1, resp :: res.2)
        | (st', .exited) => (st', [])
      | none =>
        let res := processLines probe now parse st rest
        (res.1, parseErrorResponse :: res.2)

/-- The constant function modelling a parser that rejects every line; used by
witnesses only. -/
def parseNone : String → Option JsonRpcRequest := fun _ => none

/-- `InstanceManager::list_instances` with its two lock sections separated:
`health_check_all` runs under the write lock and returns, the write lock is
released, `ops` are the lock sections other tasks acquire in that gap, then
the read lock is taken and the remaining records are snapshot. With
`ops = []` this coincides with `list_instances`. -/
def list_instances_interleaved (probe : String → Bool) (now : Nat)
    (st : InstanceStorage) (ops : List Op) :
    InstanceStorage × List InstanceResult :=
  let st1 := health_check_all probe now st
  let st2 := applyAll ops st1
  (st2, st2.map (fun kv => snapshotOf kv.2))

/-- Operations other than a registration (the only operation that creates an
`Unknown` record). -/
def NotRegister : Op → Prop
  | .register _ _ _ => False
  | _ => True

-- ## Theorems

theorem lookup_cons (k : String) (v : InstanceInfo) (rest : InstanceStorage)
    (identifier : String) :
    InstanceStorage.lookup ((k, v) :: rest) identifier =
      if k = identifier then some v else rest.lookup identifier := rfl

/-- Keys of the sweep result form a sublist of the original keys. -/
theorem sweepGo_keys_sublist (probe : String → Bool) (now : Nat) :
    ∀ st : List (String × InstanceInfo),
      ((sweepGo probe now st).1.map Prod.fst).Sublist (st.map Prod.fst)
  | [] => by simp [sweepGo]
  | (k, v) :: rest => by
    have ih := sweepGo_keys_sublist probe now rest
    simp only [sweepGo, List.map_cons]
    by_cases h : probe v.server_address
    · simp only [h, if_pos]
      exact ih.cons₂ k
    · simp only [h, if_neg, Bool.false_eq_true, not_false_iff]
      exact ih.cons k

/-- A key is found in the storage iff it is among the keys. -/
theorem lookup_eq_none_iff (st : InstanceStorage) (identifier : String) :
    st.lookup identifier = none ↔ identifier ∉ st.map Prod.fst := by
  induction st with
  | nil => simp [InstanceStorage.lookup]
  | cons kv rest ih =>
    obtain ⟨k, v⟩ := kv
    by_cases h : k = identifier
    · subst h
      simp [InstanceStorage.lookup]
    · simp only [InstanceStorage.lookup, h, if_false, ih, List.map_cons,
        List.mem_cons]
      constructor
      · intro hni hmem
        rcases hmem with heq | hmem
        · exact h heq.symm
        · exact hni hmem
      · intro hni hmem
        exact hni (Or.inr hmem)

/-- `register_instance` preserves key uniqueness. -/
theorem nodup_register (st : InstanceStorage) (identifier addr : String)
    (now : Nat) (h : NodupKeys st) :
    NodupKeys (register_instance st identifier addr now).1 := by
  unfold register_instance
  by_cases hl : st.lookup identifier = none
  · rw [if_neg (by simp [hl])]
    simp only [NodupKeys, List.map_cons, List.nodup_cons]
    exact ⟨(lookup_eq_none_iff st identifier).mp hl, h⟩
  · rw [if_pos hl]
    exact h

/-- `unregister_instance` preserves key uniqueness. -/
theorem nodup_unregister (st : InstanceStorage) (identifier : String)
    (h : NodupKeys st) :
    NodupKeys (unregister_instance st identifier).1 := by
  unfold unregister_instance
  by_cases hl : st.lookup identifier = none
  · rw [if_neg (by simp [hl])]
    exact h
  · rw [if_pos hl]
    exact List.Nodup.sublist ((List.eraseP_sublist st).map Prod.fst) h

/-- `health_check_all` preserves key uniqueness. -/
theorem nodup_sweep (probe : String → Bool) (now : Nat) (st : InstanceStorage)
    (h : NodupKeys st) :
    NodupKeys (health_check_all probe now st) :=
  List.Nodup.sublist (sweepGo_keys_sublist probe now st) h

/-- Every single serialized operation preserves key uniqueness. -/
theorem nodup_apply (op : Op) (st : InstanceStorage) (h : NodupKeys st) :
    NodupKeys (op.apply st) := by
  cases op with
  | register identifier addr now => exact nodup_register st identifier addr now h
  | unregister identifier => exact nodup_unregister st identifier h
  | query _ => exact h
  | list probe now => exact nodup_sweep probe now st h
  | sweep probe now => exact nodup_sweep probe now st h

/-- Any sequence of serialized operations preserves key uniqueness. -/
theorem nodup_applyAll (ops : List Op) (st : InstanceStorage) (h : NodupKeys st) :
    NodupKeys (applyAll ops st) := by
  induction ops generalizing st with
  | nil => exact h
  | cons op rest ih => exact ih (op.apply st) (nodup_apply op st h)

/-- If the identifier is present, every later racing `register_instance` of it
fails with `alreadyExists` and leaves the table unchanged on that key. -/
theorem runRegisters_all_fail (identifier : String) :
    ∀ (racers : List (String × Nat)) (st : InstanceStorage),
      st.lookup identifier ≠ none →
      (runRegisters st identifier racers).2.count RegResult.ok = 0
  | [], st, _ => rfl
  | (addr, now) :: rest, st, h => by
    have ih := runRegisters_all_fail identifier rest st h
    simp only [runRegisters, register_instance]
    rw [if_pos h]
    simp [List.count_cons, ih]

/-- Among serialized racers for one absent identifier, the first wins and the
rest fail. -/
theorem runRegisters_one_ok (st : InstanceStorage) (identifier : String)
    (racers : List (String × Nat)) (habs : st.lookup identifier = none)
    (hne : racers ≠ []) :
    (runRegisters st identifier racers).2.count RegResult.ok = 1 := by
  match racers with
  | [] => exact absurd rfl hne
  | (addr, now) :: rest =>
    have hpresent :
        InstanceStorage.lookup
          ((identifier,
            ({ identifier := identifier, server_address := addr,
               registered_at := now, last_ping := now,
               health_status := .Unknown,
               last_health_check := now } : InstanceInfo)) :: st)
          identifier ≠ none := by
      simp [lookup_cons]
    have hrest := runRegisters_all_fail identifier rest _ hpresent
    simp only [runRegisters, register_instance]
    rw [if_neg (by simp [habs])]
    simp only [List.count_cons, hrest]
    simp

/-- Every survivor of a sweep passed its probe and carries the refreshed
healthy record. -/
theorem mem_sweepGo (probe : String → Bool) (now : Nat) :
    ∀ (st : List (String × InstanceInfo)) (kv : String × InstanceInfo),
      kv ∈ (sweepGo probe now st).1 →
      probe kv.2.server_address = true ∧ kv.2.health_status = .Healthy ∧
        kv.2.last_ping = now ∧ kv.2.last_health_check = now
  | [], kv, h => by simp [sweepGo] at h
  | (k, v) :: rest, kv, h => by
    by_cases hp : probe v.server_address
    · simp only [sweepGo, hp, if_pos] at h
      rcases List.mem_cons.mp h with heq | hmem
      · subst heq
        exact ⟨hp, rfl, rfl, rfl⟩
      · exact mem_sweepGo probe now rest kv hmem
    · simp only [sweepGo, hp, Bool.false_eq_true, not_false_iff, if_neg] at h
      exact mem_sweepGo probe now rest kv h

/-- A successful lookup is a membership. -/
theorem lookup_mem :
    ∀ (st : InstanceStorage) (k : String) (v : InstanceInfo),
      st.lookup k = some v → (k, v) ∈ st
  | [], k, v, h => by simp [InstanceStorage.lookup] at h
  | (k', v') :: rest, k, v, h => by
    by_cases hk : k' = k
    · subst hk
      simp only [InstanceStorage.lookup, if_pos] at h
      obtain rfl : v' = v := Option.some_inj.mp h
      exact List.mem_cons_self _ _
    · simp only [InstanceStorage.lookup, hk, if_false] at h
      exact List.mem_cons_of_mem _ (lookup_mem rest k v h)

/-- The probe trace of one sweep is exactly one probe per record, at the
record's endpoint, in table order. -/
theorem sweepGo_trace (probe : String → Bool) (now : Nat) :
    ∀ st : List (String × InstanceInfo),
      (sweepGo probe now st).2 = st.map (fun kv => kv.2.server_address)
  | [] => rfl
  | (k, v) :: rest => by
    simp only [sweepGo, List.map_cons]
    rw [sweepGo_trace probe now rest]

/-- Looking up a surviving key after a sweep finds the refreshed record. -/
theorem lookup_sweepGo_pass (probe : String → Bool) (now : Nat) :
    ∀ (st : List (String × InstanceInfo)) (k : String) (v : InstanceInfo),
      InstanceStorage.lookup st k = some v → probe v.server_address = true →
      InstanceStorage.lookup (sweepGo probe now st).1 k =
        some { v with health_status := .Healthy, last_ping := now,
                      last_health_check := now }
  | [], k, v, hv, _ => by simp [InstanceStorage.lookup] at hv
  | (k', v') :: rest, k, v, hv, hp => by
    by_cases hk : k' = k
    · subst hk
      simp only [InstanceStorage.lookup, if_pos] at hv
      obtain rfl : v' = v := Option.some_inj.mp hv
      simp [sweepGo, hp, InstanceStorage.lookup]
    · simp only [InstanceStorage.lookup, hk, if_false] at hv
      have ih := lookup_sweepGo_pass probe now rest k v hv hp
      by_cases hp' : probe v'.server_address
      · simp [sweepGo, hp', InstanceStorage.lookup, hk, ih]
      · simp [sweepGo, hp', InstanceStorage.lookup, hk, ih]

/-- If a key is absent, it is still absent after a sweep. -/
theorem lookup_sweepGo_none (probe : String → Bool) (now : Nat)
    (st : List (String × InstanceInfo)) (k : String)
    (h : k ∉ st.map Prod.fst) :
    InstanceStorage.lookup (sweepGo probe now st).1 k = none := by
  refine (lookup_eq_none_iff _ k).mpr (fun hmem => h ?_)
  exact (sweepGo_keys_sublist probe now st).subset hmem

/-- A record that fails its probe is gone after the sweep (given hash-map key
uniqueness). -/
theorem lookup_sweepGo_fail (probe : String → Bool) (now : Nat) :
    ∀ (st : List (String × InstanceInfo)) (k : String) (v : InstanceInfo),
      NodupKeys st →
      InstanceStorage.lookup st k = some v → probe v.server_address = false →
      InstanceStorage.lookup (sweepGo probe now st).1 k = none
  | [], k, v, _, hv, _ => by simp [InstanceStorage.lookup] at hv
  | (k', v') :: rest, k, v, hnd, hv, hp => by
    have hnd' : NodupKeys rest := (List.nodup_cons.mp hnd).2
    by_cases hk : k' = k
    · subst hk
      simp only [InstanceStorage.lookup, if_pos] at hv
      obtain rfl : v' = v := Option.some_inj.mp hv
      simp only [sweepGo, hp, Bool.false_eq_true, not_false_iff, if_neg]
      exact lookup_sweepGo_none probe now rest k' (List.nodup_cons.mp hnd).1
    · simp only [InstanceStorage.lookup, hk, if_false] at hv
      have ih := lookup_sweepGo_fail probe now rest k v hnd' hv hp
      by_cases hp' : probe v'.server_address
      · simp [sweepGo, hp', InstanceStorage.lookup, hk, ih]
      · simp [sweepGo, hp', InstanceStorage.lookup, hk, ih]

/-- C1: `register_instance` checks absence and inserts in one exclusive
write-lock section, so registrations serialize; among any non-empty burst of
racing registrations of one absent identifier exactly one returns `Ok` and
every other returns `AlreadyExists`, and every operation sequence preserves
the invariant that no two records share an identifier. -/
theorem registry_identifier_unique :
    (∀ (ops : List Op) (st : InstanceStorage),
        NodupKeys st → NodupKeys (applyAll ops st)) ∧
    (∀ (st : InstanceStorage) (identifier : String)
        (racers : List (String × Nat)),
        InstanceStorage.lookup st identifier = none → racers ≠ [] →
        (runRegisters st identifier racers).2.count RegResult.ok = 1 ∧
        ∀ r ∈ (runRegisters st identifier racers).2,
          r ≠ RegResult.ok → r = RegResult.alreadyExists) := by
  refine ⟨fun ops st h => nodup_applyAll ops st h,
    fun st identifier racers habs hne =>
      ⟨runRegisters_one_ok st identifier racers habs hne, ?_⟩⟩
  intro r _ hr
  cases r
  · exact absurd rfl hr
  · rfl

/-- Witness for C1 at a concrete table and a concrete pair of racers. -/
theorem registry_identifier_unique_witness :
    NodupKeys (applyAll [Op.register "a" "pa" 0, Op.unregister "a"]
      ([] : InstanceStorage)) ∧
    (runRegisters ([] : InstanceStorage) "b"
      [("pb", 1), ("pc", 2)]).2.count RegResult.ok = 1 :=
  ⟨registry_identifier_unique.1 _ _ (by simp [NodupKeys]),
   (registry_identifier_unique.2 ([] : InstanceStorage) "b"
      [("pb", 1), ("pc", 2)] rfl (by simp)).1⟩

/-- C2: one `health_check_all` pass probes each record exactly once (the
trace is one endpoint per record); a record whose probe succeeds becomes
`Healthy` with `last_ping` and `last_health_check` set to the sweep time; a
record whose probe fails is removed in that same sweep, so a subsequent
query for it returns nothing. -/
theorem health_sweep_probe_update_evict (probe : String → Bool) (now : Nat)
    (st : InstanceStorage) (hnd : NodupKeys st) :
    sweepTrace probe now st = st.map (fun kv => kv.2.server_address) ∧
    (∀ k v, InstanceStorage.lookup st k = some v →
        probe v.server_address = true →
        InstanceStorage.lookup (health_check_all probe now st) k =
          some { v with health_status := .Healthy, last_ping := now,
                        last_health_check := now }) ∧
    (∀ k v, InstanceStorage.lookup st k = some v →
        probe v.server_address = false →
        query_instance (health_check_all probe now st) k = none) := by
  refine ⟨sweepGo_trace probe now st,
    fun k v hv hp => lookup_sweepGo_pass probe now st k v hv hp,
    fun k v hv hp => ?_⟩
  have h := lookup_sweepGo_fail probe now st k v hnd hv hp
  simp only [query_instance, health_check_all]
  rw [h]

/-- Witness for C2 on the two-record table under the probe that only keeps
endpoint "pa" alive. -/
theorem health_sweep_probe_update_evict_witness :
    sweepTrace probeOnlyA 7 sampleStorage = ["pa", "pb"] ∧
    InstanceStorage.lookup (health_check_all probeOnlyA 7 sampleStorage) "a" =
      some { infoA with health_status := .Healthy, last_ping := 7,
                        last_health_check := 7 } ∧
    query_instance (health_check_all probeOnlyA 7 sampleStorage) "b" = none := by
  have h := health_sweep_probe_update_evict probeOnlyA 7 sampleStorage
    (by unfold NodupKeys; decide)
  exact ⟨by rw [h.1]; rfl, h.2.1 "a" infoA rfl rfl, h.2.2 "b" infoB rfl rfl⟩

/-- C3: `list_instances` first runs a full health sweep and then snapshots
exactly the remaining records; every snapshot it returns passed its probe in
that sweep. -/
theorem list_after_sweep (probe : String → Bool) (now : Nat)
    (st : InstanceStorage) :
    (list_instances probe now st).1 = health_check_all probe now st ∧
    (list_instances probe now st).2 =
      (health_check_all probe now st).map (fun kv => snapshotOf kv.2) ∧
    ∀ r ∈ (list_instances probe now st).2, probe r.server_address = true := by
  refine ⟨rfl, rfl, ?_⟩
  intro r hr
  simp only [list_instances] at hr
  rcases List.mem_map.mp hr with ⟨kv, hkv, rfl⟩
  exact (mem_sweepGo probe now st kv hkv).1

/-- Witness for C3: the snapshot surviving a concrete list call passed its
probe. -/
theorem list_after_sweep_witness : probeOnlyA "pa" = true :=
  (list_after_sweep probeOnlyA 7 sampleStorage).2.2
    (InstanceResult.mk "a" "pa" .Healthy 7) (by decide)

/-- A non-registration lock section cannot introduce a non-`Healthy` record
into an all-`Healthy` table. -/
theorem apply_preserves_healthy (op : Op) (st : InstanceStorage)
    (hop : NotRegister op)
    (h : ∀ kv ∈ st, kv.2.health_status = HealthStatus.Healthy) :
    ∀ kv ∈ op.apply st, kv.2.health_status = .Healthy := by
  cases op with
  | register j addr now => exact absurd hop not_false
  | unregister j =>
    intro kv hkv
    simp only [Op.apply, applyT, unregister_instance] at hkv
    by_cases hj : InstanceStorage.lookup st j = none
    · rw [if_neg (by simp [hj])] at hkv
      exact h kv hkv
    · rw [if_pos hj] at hkv
      exact h kv ((List.eraseP_sublist st).subset hkv)
  | query _ => exact fun kv hkv => h kv hkv
  | list probe now =>
    exact fun kv hkv => (mem_sweepGo probe now st kv hkv).2.1
  | sweep probe now =>
    exact fun kv hkv => (mem_sweepGo probe now st kv hkv).2.1

/-- A sequence of non-registration lock sections cannot introduce a
non-`Healthy` record into an all-`Healthy` table. -/
theorem applyAll_preserves_healthy (ops : List Op) (st : InstanceStorage)
    (hops : ∀ op ∈ ops, NotRegister op)
    (h : ∀ kv ∈ st, kv.2.health_status = HealthStatus.Healthy) :
    ∀ kv ∈ applyAll ops st, kv.2.health_status = .Healthy := by
  induction ops generalizing st with
  | nil => exact h
  | cons op rest ih =>
    exact ih (op.apply st)
      (fun o ho => hops o (List.mem_cons_of_mem op ho))
      (apply_preserves_healthy op st (hops op (List.mem_cons_self op rest)) h)

/-- C9 is false as stated: `list_instances` releases the write lock when the
sweep returns and only then takes the read lock for the snapshot, so a
registration acquiring the write lock in that gap puts a fresh `Unknown`
record into the table, and its snapshot appears in the returned array. -/
theorem list_unknown_counterexample :
    ({ identifier := "c", server_address := "pc",
       health_status := .Unknown, last_health_check := 9 } : InstanceResult) ∈
      (list_instances_interleaved probeOnlyA 7 sampleStorage
        [Op.register "c" "pc" 9]).2 ∧
    ({ identifier := "c", server_address := "pc",
       health_status := .Unknown, last_health_check := 9 } :
        InstanceResult).health_status ≠ .Healthy :=
  ⟨by decide, by decide⟩

/-- C9 (amended): immediately after a health sweep completes, every record
still present in the registry is `Healthy`; and every snapshot in a
`list_instances` result is `Healthy` provided no `register_instance`
interleaves between the sweep's write-lock section and the snapshot's
read-lock section. -/
theorem sweep_survivors_healthy (probe : String → Bool) (now : Nat)
    (st : InstanceStorage) (ops : List Op)
    (hops : ∀ op ∈ ops, NotRegister op) :
    (∀ k v, InstanceStorage.lookup (health_check_all probe now st) k = some v →
        v.health_status = .Healthy) ∧
    (∀ r ∈ (list_instances_interleaved probe now st ops).2,
        r.health_status = .Healthy) := by
  constructor
  · intro k v hv
    exact (mem_sweepGo probe now st (k, v) (lookup_mem _ k v hv)).2.1
  · intro r hr
    simp only [list_instances_interleaved] at hr
    rcases List.mem_map.mp hr with ⟨kv, hkv, rfl⟩
    exact applyAll_preserves_healthy ops (health_check_all probe now st) hops
      (fun kv2 hkv2 => (mem_sweepGo probe now st kv2 hkv2).2.1) kv hkv

/-- Witness for the amended C9: an unregistration and a query interleave in
the lock gap, and the listed snapshot is still `Healthy`. -/
theorem sweep_survivors_healthy_witness :
    (InstanceResult.mk "a" "pa" .Healthy 7).health_status = .Healthy :=
  (sweep_survivors_healthy probeOnlyA 7 sampleStorage
      [Op.unregister "zz", Op.query "a"]
      (by
        intro op hop
        simp only [List.mem_cons, List.not_mem_nil, or_false] at hop
        rcases hop with rfl | rfl
        · exact True.intro
        · exact True.intro)).2
    (InstanceResult.mk "a" "pa" .Healthy 7) (by decide)

/-- Erasing one key leaves every other key's lookup unchanged. -/
theorem lookup_eraseP_ne (identifier : String) :
    ∀ (st : InstanceStorage) (k : String), identifier ≠ k →
      InstanceStorage.lookup (st.eraseP (fun kv => kv.1 == identifier)) k =
        InstanceStorage.lookup st k
  | [], _, _ => rfl
  | (k', v') :: rest, k, hne => by
    by_cases hk : k' = identifier
    · subst hk
      simp only [List.eraseP_cons, beq_self_eq_true, cond_true,
        InstanceStorage.lookup]
      rw [if_neg hne]
    · have hbeq : (k' == identifier) = false := beq_eq_false_iff_ne.mpr hk
      simp only [List.eraseP_cons, hbeq, cond_false, InstanceStorage.lookup]
      by_cases hkk : k' = k
      · rw [if_pos hkk, if_pos hkk]
      · rw [if_neg hkk, if_neg hkk]
        exact lookup_eraseP_ne identifier rest k hne

/-- Under key uniqueness, erasing a key removes it from the table. -/
theorem lookup_eraseP_self :
    ∀ (st : InstanceStorage) (identifier : String), NodupKeys st →
      InstanceStorage.lookup (st.eraseP (fun kv => kv.1 == identifier))
        identifier = none
  | [], _, _ => rfl
  | (k', v') :: rest, identifier, hnd => by
    have hnd' : NodupKeys rest := (List.nodup_cons.mp hnd).2
    by_cases hk : k' = identifier
    · subst hk
      simp only [List.eraseP_cons, beq_self_eq_true, cond_true]
      exact (lookup_eq_none_iff rest k').mpr (List.nodup_cons.mp hnd).1
    · have hbeq : (k' == identifier) = false := beq_eq_false_iff_ne.mpr hk
      simp only [List.eraseP_cons, hbeq, cond_false, InstanceStorage.lookup]
      rw [if_neg hk]
      exact lookup_eraseP_self rest identifier hnd'

/-- A stored record survives, unchanged, any operation that preserves its key. -/
theorem lookup_apply_preserved (op : Op) (st : InstanceStorage) (k : String)
    (v : InstanceInfo) (hv : InstanceStorage.lookup st k = some v)
    (hp : PreservesKey k op) :
    InstanceStorage.lookup (op.apply st) k = some v := by
  cases op with
  | register j addr now =>
    simp only [Op.apply, applyT, register_instance]
    by_cases hj : InstanceStorage.lookup st j = none
    · rw [if_neg (by simp [hj])]
      simp only [InstanceStorage.lookup]
      have hjk : j ≠ k := fun h => by
        subst h
        rw [hj] at hv
        cases hv
      rw [if_neg hjk]
      exact hv
    · rw [if_pos hj]
      exact hv
  | unregister j =>
    simp only [Op.apply, applyT, unregister_instance]
    by_cases hj : InstanceStorage.lookup st j = none
    · rw [if_neg (by simp [hj])]
      exact hv
    · rw [if_pos hj]
      rw [lookup_eraseP_ne j st k hp]
      exact hv
  | query _ => exact hv
  | list probe now => exact absurd hp not_false
  | sweep probe now => exact absurd hp not_false

/-- A stored record survives, unchanged, any sequence of operations each of
which preserves its key. -/
theorem lookup_applyAll_preserved (ops : List Op) (st : InstanceStorage)
    (k : String) (v : InstanceInfo)
    (hv : InstanceStorage.lookup st k = some v)
    (hops : ∀ op ∈ ops, PreservesKey k op) :
    InstanceStorage.lookup (applyAll ops st) k = some v := by
  induction ops generalizing st with
  | nil => exact hv
  | cons op rest ih =>
    exact ih (op.apply st)
      (lookup_apply_preserved op st k v hv (hops op (List.mem_cons_self op rest)))
      (fun o ho => hops o (List.mem_cons_of_mem op ho))

/-- C6: no registry operation ever moves an existing record from `Healthy`
back to `Unknown`: whenever a key is mapped before and after one serialized
operation and the old record was `Healthy`, the new record is `Healthy` too
(a failed probe evicts the record instead of downgrading it). -/
theorem no_healthy_downgrade (op : Op) (st : InstanceStorage) (k : String)
    (v v' : InstanceInfo) (hnd : NodupKeys st)
    (hv : InstanceStorage.lookup st k = some v)
    (hv' : InstanceStorage.lookup (op.apply st) k = some v')
    (hh : v.health_status = .Healthy) :
    v'.health_status = .Healthy := by
  cases op with
  | register j addr now =>
    simp only [Op.apply, applyT, register_instance] at hv'
    by_cases hj : InstanceStorage.lookup st j = none
    · rw [if_neg (by simp [hj])] at hv'
      simp only [InstanceStorage.lookup] at hv'
      by_cases hjk : j = k
      · subst hjk
        rw [hj] at hv
        cases hv
      · rw [if_neg hjk] at hv'
        obtain rfl : v = v' := Option.some_inj.mp (hv.symm.trans hv')
        exact hh
    · rw [if_pos hj] at hv'
      obtain rfl : v = v' := Option.some_inj.mp (hv.symm.trans hv')
      exact hh
  | unregister j =>
    simp only [Op.apply, applyT, unregister_instance] at hv'
    by_cases hj : InstanceStorage.lookup st j = none
    · rw [if_neg (by simp [hj])] at hv'
      obtain rfl : v = v' := Option.some_inj.mp (hv.symm.trans hv')
      exact hh
    · rw [if_pos hj] at hv'
      by_cases hjk : j = k
      · subst hjk
        rw [lookup_eraseP_self st j hnd] at hv'
        cases hv'
      · rw [lookup_eraseP_ne j st k hjk] at hv'
        obtain rfl : v = v' := Option.some_inj.mp (hv.symm.trans hv')
        exact hh
  | query _ =>
    obtain rfl : v = v' := Option.some_inj.mp (hv.symm.trans hv')
    exact hh
  | list probe now =>
    exact (mem_sweepGo probe now st (k, v') (lookup_mem _ k v' hv')).2.1
  | sweep probe now =>
    exact (mem_sweepGo probe now st (k, v') (lookup_mem _ k v' hv')).2.1

/-- Witness for C6: a `Healthy` record stays `Healthy` across an unrelated
unregistration. -/
theorem no_healthy_downgrade_witness : infoB.health_status = .Healthy :=
  no_healthy_downgrade (Op.unregister "zz") sampleStorage "b" infoB infoB
    (by unfold NodupKeys; decide) (by decide) (by decide) (by decide)

/-- C8: `query_instance` is a pure read: it issues no probe, leaves the
table exactly unchanged, and returns the stored record's snapshot when the
identifier is present and nothing otherwise. -/
theorem query_pure_read (st : InstanceStorage) (identifier : String) :
    applyT (.query identifier) st = (st, []) ∧
    (∀ v, InstanceStorage.lookup st identifier = some v →
        query_instance st identifier = some (snapshotOf v)) ∧
    (InstanceStorage.lookup st identifier = none →
        query_instance st identifier = none) := by
  refine ⟨rfl, fun v hv => ?_, fun h => ?_⟩
  · simp only [query_instance]
    rw [hv]
  · simp only [query_instance]
    rw [h]

/-- Witness for C8 on the concrete table. -/
theorem query_pure_read_witness :
    applyT (.query "a") sampleStorage = (sampleStorage, []) ∧
    query_instance sampleStorage "a" = some (snapshotOf infoA) ∧
    query_instance sampleStorage "zz" = none :=
  ⟨(query_pure_read sampleStorage "a").1,
   (query_pure_read sampleStorage "a").2.1 infoA (by decide),
   (query_pure_read sampleStorage "zz").2.2 (by decide)⟩

/-- C5 as stated is false: after a successful registration, the claim
promises the `Unknown` snapshot at every point before the next sweep, but an
intervening `unregister_instance` of the same identifier (no sweep at all)
makes `query_instance` return nothing. -/
theorem register_then_query_counterexample :
    (register_instance ([] : InstanceStorage) "a" "pa" 0).2 = RegResult.ok ∧
    (∀ op ∈ [Op.unregister "a"],
        (∀ probe now, op ≠ Op.sweep probe now) ∧
        (∀ probe now, op ≠ Op.list probe now)) ∧
    query_instance
      (applyAll [Op.unregister "a"]
        (register_instance ([] : InstanceStorage) "a" "pa" 0).1) "a" = none := by
  refine ⟨rfl, ?_, by decide⟩
  intro op hop
  simp only [List.mem_singleton] at hop
  subst hop
  exact ⟨fun probe now h => Op.noConfusion h, fun probe now h => Op.noConfusion h⟩

/-- C5 (amended): if `register_instance(id, addr)` succeeds then, at every
point before the next health sweep (including the sweep triggered by
`list_instances`) and before any `unregister_instance(id)`, `query_instance(id)`
returns a snapshot with `server_address = addr`, `health_status = Unknown`
and `last_health_check` equal to the registration time. -/
theorem register_then_query_unknown (st : InstanceStorage)
    (identifier addr : String) (now : Nat) (ops : List Op)
    (hok : (register_instance st identifier addr now).2 = .ok)
    (hops : ∀ op ∈ ops, PreservesKey identifier op) :
    query_instance (applyAll ops (register_instance st identifier addr now).1)
      identifier =
      some { identifier := identifier, server_address := addr,
             health_status := .Unknown, last_health_check := now } := by
  have habs : InstanceStorage.lookup st identifier = none := by
    by_contra habs
    simp only [register_instance] at hok
    rw [if_pos habs] at hok
    cases hok
  have hst1 : (register_instance st identifier addr now).1 =
      (identifier,
        ({ identifier := identifier, server_address := addr,
           registered_at := now, last_ping := now,
           health_status := .Unknown,
           last_health_check := now } : InstanceInfo)) :: st := by
    simp only [register_instance]
    rw [if_neg (by simp [habs])]
  have hlook1 : InstanceStorage.lookup
      (register_instance st identifier addr now).1 identifier =
      some { identifier := identifier, server_address := addr,
             registered_at := now, last_ping := now,
             health_status := .Unknown, last_health_check := now } := by
    rw [hst1]
    simp [InstanceStorage.lookup]
  have hfinal := lookup_applyAll_preserved ops _ identifier _ hlook1 hops
  simp only [query_instance]
  rw [hfinal]
  rfl

/-- Witness for the amended C5: register, then run an unrelated registration
and an unrelated unregistration and a query; the snapshot is still `Unknown`
with the registered endpoint. -/
theorem register_then_query_unknown_witness :
    query_instance
      (applyAll [Op.register "c" "pc" 3, Op.unregister "zz", Op.query "c"]
        (register_instance sampleStorage "d" "pd" 2).1) "d" =
      some { identifier := "d", server_address := "pd",
             health_status := .Unknown, last_health_check := 2 } := by
  have h := register_then_query_unknown sampleStorage "d" "pd" 2
    [Op.register "c" "pc" 3, Op.unregister "zz", Op.query "c"] (by decide) ?_
  · exact h
  · intro op hop
    simp only [List.mem_cons, List.not_mem_nil, or_false] at hop
    rcases hop with rfl | rfl | rfl
    · exact True.intro
    · exact (by decide : ("zz" : String) ≠ "d")
    · exact True.intro

/-- Decoding an `Option<Value>` field whose stored value is not `null`
recovers the value. -/
theorem decodeOptValue_some (v : Json) (h : v.isNull = false) :
    decodeOptValue (some v) = some v := by
  simp [decodeOptValue, h]

/-- C4 is false as stated: the response the server actually produces for a
query miss carries `result = Some(Value::Null)`; it serializes as
`"result":null`, which serde reads back as an absent `result`, so the
round-trip does not return the original envelope. -/
theorem envelope_roundtrip_counterexample :
    decodeResponse (encodeResponse
      { jsonrpc := "2.0", result := some Json.null, error := none,
        id := Json.str "1" }) ≠
      some { jsonrpc := "2.0", result := some Json.null, error := none,
             id := Json.str "1" } := by
  intro h
  have h1 : decodeResponse (encodeResponse
      { jsonrpc := "2.0", result := some Json.null, error := none,
        id := Json.str "1" }) =
      some { jsonrpc := "2.0", result := none, error := none,
             id := Json.str "1" } := rfl
  rw [h1] at h
  have h2 : (none : Option Json) = some Json.null :=
    congrArg JsonRpcResponse.result (Option.some_inj.mp h)
  exact Option.noConfusion h2

/-- C4 (amended): encode-then-decode is the identity on every request
envelope, and on every response envelope whose `result` payload (when
present) is not JSON `null` and whose error `data` payload (when present) is
not JSON `null`; absent `result`/`error`/`data` stay absent. -/
theorem envelope_roundtrip (req : JsonRpcRequest) (resp : JsonRpcResponse)
    (hres : ∀ v, resp.result = some v → v.isNull = false)
    (hdata : ∀ e, resp.error = some e → ∀ d, e.data = some d →
      d.isNull = false) :
    decodeRequest (encodeRequest req) = some req ∧
    decodeResponse (encodeResponse resp) = some resp := by
  constructor
  · rfl
  · obtain ⟨j, result, error, id⟩ := resp
    cases result with
    | none =>
      cases error with
      | none => rfl
      | some e =>
        obtain ⟨c, m, data⟩ := e
        cases data with
        | none => rfl
        | some d =>
          have hd : d.isNull = false := hdata ⟨c, m, some d⟩ rfl d rfl
          have h1 : decodeResponse (encodeResponse
              ⟨j, none, some ⟨c, m, some d⟩, id⟩) =
              some ⟨j, none, some ⟨c, m, decodeOptValue (some d)⟩, id⟩ := rfl
          rw [h1, decodeOptValue_some d hd]
    | some v =>
      have hv : v.isNull = false := hres v rfl
      cases error with
      | none =>
        have h1 : decodeResponse (encodeResponse ⟨j, some v, none, id⟩) =
            some ⟨j, decodeOptValue (some v), none, id⟩ := rfl
        rw [h1, decodeOptValue_some v hv]
      | some e =>
        obtain ⟨c, m, data⟩ := e
        cases data with
        | none =>
          have h1 : decodeResponse (encodeResponse
              ⟨j, some v, some ⟨c, m, none⟩, id⟩) =
              some ⟨j, decodeOptValue (some v), some ⟨c, m, none⟩, id⟩ := rfl
          rw [h1, decodeOptValue_some v hv]
        | some d =>
          have hd : d.isNull = false := hdata ⟨c, m, some d⟩ rfl d rfl
          have h1 : decodeResponse (encodeResponse
              ⟨j, some v, some ⟨c, m, some d⟩, id⟩) =
              some ⟨j, decodeOptValue (some v),
                    some ⟨c, m, decodeOptValue (some d)⟩, id⟩ := rfl
          rw [h1, decodeOptValue_some v hv, decodeOptValue_some d hd]

/-- Witness for the amended C4 on a concrete request and a concrete
successful-registration response. -/
theorem envelope_roundtrip_witness :
    decodeRequest (encodeRequest
      { jsonrpc := "2.0", method := "query_instance",
        params := Json.obj [("identifier", Json.str "a")],
        id := Json.str "7" }) =
      some { jsonrpc := "2.0", method := "query_instance",
             params := Json.obj [("identifier", Json.str "a")],
             id := Json.str "7" } ∧
    decodeResponse (encodeResponse
      { jsonrpc := "2.0", result := some (Json.str "registered"),
        error := none, id := Json.str "7" }) =
      some { jsonrpc := "2.0", result := some (Json.str "registered"),
             error := none, id := Json.str "7" } :=
  envelope_roundtrip
    { jsonrpc := "2.0", method := "query_instance",
      params := Json.obj [("identifier", Json.str "a")],
      id := Json.str "7" }
    { jsonrpc := "2.0", result := some (Json.str "registered"),
      error := none, id := Json.str "7" }
    (fun v h => by
      injection h with h2
      subst h2
      rfl)
    (fun e h => Option.noConfusion h)

/-- C7: a non-blank line the parser rejects produces exactly one reply — the
parse-error response, error code -32700 with `id` JSON `null` and no result —
the registry is untouched, and the loop continues with the remaining lines
instead of closing the connection. -/
theorem malformed_line_parse_error (probe : String → Bool) (now : Nat)
    (parse : String → Option JsonRpcRequest) (st : InstanceStorage)
    (line : String) (rest : List String)
    (hne : rustTrim line ≠ "") (hparse : parse (rustTrim line) = none) :
    processLines probe now parse st (line :: rest) =
      ((processLines probe now parse st rest).1,
       parseErrorResponse :: (processLines probe now parse st rest).2) ∧
    parseErrorResponse.error =
      some { code := -32700, message := "Parse error", data := none } ∧
    parseErrorResponse.id = Json.null ∧
    parseErrorResponse.result = none := by
  refine ⟨?_, rfl, rfl, rfl⟩
  simp only [processLines]
  rw [if_neg hne, hparse]

/-- Witness for C7: the single line `not-json` yields exactly the parse-error
response and leaves the table unchanged. -/
theorem malformed_line_parse_error_witness :
    processLines probeOnlyA 0 parseNone sampleStorage ["not-json"] =
      (sampleStorage, [parseErrorResponse]) := by
  have h := malformed_line_parse_error probeOnlyA 0 parseNone sampleStorage
    "not-json" [] (by decide) rfl
  rw [h.1]
  rfl

/-- C10: a line that is empty or all whitespace produces no response at all,
the registry is unchanged, and the loop goes on reading the remaining lines. -/
theorem blank_line_no_response (probe : String → Bool) (now : Nat)
    (parse : String → Option JsonRpcRequest) (st : InstanceStorage)
    (line : String) (rest : List String) (h : rustTrim line = "") :
    processLines probe now parse st (line :: rest) =
      processLines probe now parse st rest ∧
    processLines probe now parse st [line] = (st, []) := by
  constructor
  · simp only [processLines]
    rw [if_pos h]
  · simp only [processLines]
    rw [if_pos h]

/-- Witness for C10: a whitespace-only line yields no response and the
unchanged table. -/
theorem blank_line_no_response_witness :
    processLines probeOnlyA 0 parseNone sampleStorage ["  "] =
      (sampleStorage, []) :=
  (blank_line_no_response probeOnlyA 0 parseNone sampleStorage "  " []
    (by decide)).2
